import Mathlib

/-!
Shallow embedding of the static_evaluation_engine chess core
(src/bitboard.py and src/search.py) and verification of the frozen claims.

Conventions of the embedding:
* Python ints that can be negative (square indices produced by pop_lsb) are
  modelled as Int; Python arbitrary-precision nonnegative bitboards as Nat.
* Python floor division and modulo on ints coincide with Int.ediv and
  Int.emod for positive divisors, which is what `/` and `%` mean below.
* Python list indexing with a negative index wraps from the end; the attack
  table lookups reproduce that (only index -1 ever occurs at run time).
* Stateful Python code is state-passing: methods that mutate the Board
  return the new Board.  The save-state and restore-state pair of the
  source restores exactly the eight core fields and not the histories,
  which the embedding reproduces.
* Squares below 0 make the Python source raise ValueError inside
  `1 << square`; the embedding gives those calls a harmless total value.
  None of the concrete computations below reaches such a call (they were
  cross-checked against an instrumented replica that raises there).
* The external evaluator (src/evaluation.py is written against the
  python-chess API and cannot run on this Board; NegascoutSearch.is_draw
  also calls the nonexistent Evaluation.is_insufficient_material) is
  modelled from the spec as an abstract total function, passed as a
  parameter, per section 6 of the spec.  Wall-clock expiry polls are
  modelled as a Boolean oracle over the poll counter.
-/

namespace Cece

/-- Piece type codes, as in the PieceType enum of bitboard.py. -/
def PAWN : Nat := 0
def KNIGHT : Nat := 1
def BISHOP : Nat := 2
def ROOK : Nat := 3
def QUEEN : Nat := 4
def KING : Nat := 5

/-- Color codes, as in the Color enum of bitboard.py. -/
def WHITE : Nat := 0
def BLACK : Nat := 1

/-- BitboardUtils.set_bit.  Python raises for a negative square; squares
below 0 never reach this in the verified computations. -/
def setBit (bb : Nat) (sq : Int) : Nat := bb ||| (1 <<< sq.toNat)

/-- BitboardUtils.clear_bit: `bitboard & ~(1 << square)` on Python ints
clears the one bit and keeps every other bit, which for naturals is the
subtraction below. -/
def clearBit (bb : Nat) (sq : Int) : Nat :=
  if bb.testBit sq.toNat then bb - (1 <<< sq.toNat) else bb

/-- BitboardUtils.get_bit. -/
def getBit (bb : Nat) (sq : Int) : Bool := bb.testBit sq.toNat

/-- Fuel-bounded halving loop for bit lengths; 128 units of fuel cover
every integer occurring here (all bitboards stay below 2 ^ 64). -/
def bitLenAux : Nat → Nat → Nat
  | 0, _ => 0
  | fuel + 1, n => if n = 0 then 0 else bitLenAux fuel (n / 2) + 1

/-- Python int.bit_length: zero for zero, otherwise one more than the
position of the highest set bit. -/
def pyBitLength (n : Nat) : Nat := bitLenAux 128 n

/-- BitboardUtils.pop_lsb.  `bitboard & -bitboard` on Python ints is the
lowest set bit, equal to `bb &&& (bb ^^^ (bb - 1))` for positive naturals.
The source computes the square as `(lsb - 1).bit_length() - 1`, which is
one less than the index of the popped bit (and -1 when bit 0 pops). -/
def popLsb (bb : Nat) : Nat × Int :=
  if bb = 0 then (0, -1)
  else
    let lsb := bb &&& (bb ^^^ (bb - 1))
    let square : Int := (pyBitLength (lsb - 1) : Int) - 1
    (bb ^^^ lsb, square)

/-- BitboardUtils.count_bits (`bin(bitboard).count('1')`). -/
def countBits (bb : Nat) : Nat :=
  (List.range 64).foldl (fun acc i => acc + (if bb.testBit i then 1 else 0)) 0

/-- Knight attack mask for one square, as built by
AttackTables._init_knight_attacks. -/
def knightAttacksAt (square : Int) : Nat :=
  let file := square % 8
  let rank := square / 8
  [(-2, -1), (-2, 1), (-1, -2), (-1, 2), (1, -2), (1, 2), (2, -1), (2, 1)].foldl
    (fun acc (d : Int × Int) =>
      let tf := file + d.1
      let tr := rank + d.2
      if 0 ≤ tf ∧ tf ≤ 7 ∧ 0 ≤ tr ∧ tr ≤ 7 then setBit acc (tr * 8 + tf) else acc) 0

/-- King attack mask for one square, as built by
AttackTables._init_king_attacks. -/
def kingAttacksAt (square : Int) : Nat :=
  let file := square % 8
  let rank := square / 8
  [(-1, -1), (-1, 0), (-1, 1), (0, -1), (0, 1), (1, -1), (1, 0), (1, 1)].foldl
    (fun acc (d : Int × Int) =>
      let tf := file + d.1
      let tr := rank + d.2
      if 0 ≤ tf ∧ tf ≤ 7 ∧ 0 ≤ tr ∧ tr ≤ 7 then setBit acc (tr * 8 + tf) else acc) 0

/-- Pawn attack mask for one color and square, as built by
AttackTables._init_pawn_attacks. -/
def pawnAttacksAt (color : Nat) (square : Int) : Nat :=
  let file := square % 8
  let rank := square / 8
  if color = WHITE then
    let a := if rank < 7 ∧ file > 0 then setBit 0 ((rank + 1) * 8 + (file - 1)) else 0
    if rank < 7 ∧ file < 7 then setBit a ((rank + 1) * 8 + (file + 1)) else a
  else
    let a := if rank > 0 ∧ file > 0 then setBit 0 ((rank - 1) * 8 + (file - 1)) else 0
    if rank > 0 ∧ file < 7 then setBit a ((rank - 1) * 8 + (file + 1)) else a

/-- Python list lookup `table[i]` over a 64-entry attack table: a negative
index wraps from the end (only -1 occurs at run time). -/
def tblIndex (i : Int) : Int := if i < 0 then i + 64 else i

/-- AttackTables.knight_attacks lookup. -/
def knightAttacks (i : Int) : Nat := knightAttacksAt (tblIndex i)

/-- AttackTables.king_attacks lookup. -/
def kingAttacks (i : Int) : Nat := kingAttacksAt (tblIndex i)

/-- AttackTables.pawn_attacks lookup. -/
def pawnAttacks (color : Nat) (i : Int) : Nat := pawnAttacksAt color (tblIndex i)

/-- Move, as in bitboard.py.  The captured_piece field set during
make_move is local to that call (nothing reads it afterwards) and the
transient ordering score is kept outside the move, so neither is a field
here; equality on from, to and promotion plus the two flags is structural
equality of this record (generated moves carry canonical flags). -/
structure Move where
  from_square : Int
  to_square : Int
  promotion : Option Nat := none
  is_castling : Bool := false
  is_en_passant : Bool := false
deriving DecidableEq, Repr

/-- Board, as in bitboard.py: piece bitboards indexed [color][piece_type],
occupancy bitboards, game state, and the two history lists.  The four
castling flags are the entries of the castling_rights dict under keys
K, Q, k, q in that order. -/
structure Board where
  pieces : List (List Nat)
  color_occupancy : List Nat
  all_occupancy : Nat
  to_move : Nat
  castleWK : Bool
  castleWQ : Bool
  castleBK : Bool
  castleBQ : Bool
  en_passant_square : Option Int
  halfmove_clock : Nat
  fullmove_number : Nat
  move_history : List Move
  position_history : List (List Char)
deriving DecidableEq, Repr

/-- Lookup pieces[color][piece_type]. -/
def piecesBB (b : Board) (color pt : Nat) : Nat := (b.pieces.getD color []).getD pt 0

/-- Functional update of pieces[color][piece_type]. -/
def setPiecesBB (b : Board) (color pt : Nat) (bb : Nat) : Board :=
  { b with pieces := b.pieces.set color ((b.pieces.getD color []).set pt bb) }

/-- Board.set_piece. -/
def setPiece (b : Board) (sq : Int) (pt color : Nat) : Board :=
  setPiecesBB b color pt (setBit (piecesBB b color pt) sq)

/-- Board.remove_piece. -/
def removePiece (b : Board) (sq : Int) (pt color : Nat) : Board :=
  setPiecesBB b color pt (clearBit (piecesBB b color pt) sq)

/-- Board.get_piece_at: scan colors then piece types in enum order.  A
negative square would raise in Python; it is never reached below. -/
def getPieceAt (b : Board) (sq : Int) : Option (Nat × Nat) :=
  if sq < 0 then none
  else
    (List.range 2).findSome? fun color =>
      (List.range 6).findSome? fun pt =>
        if getBit (piecesBB b color pt) sq then some (pt, color) else none

/-- Board.update_occupancy. -/
def updateOccupancy (b : Board) : Board :=
  let w := (List.range 6).foldl (fun acc pt => acc ||| piecesBB b WHITE pt) 0
  let bl := (List.range 6).foldl (fun acc pt => acc ||| piecesBB b BLACK pt) 0
  { b with color_occupancy := [w, bl], all_occupancy := w ||| bl }

/-- One sliding ray of Board.get_sliding_attacks: walk from (file, rank)
in direction (df, dr) for at most seven steps, collecting squares and
stopping at the first occupied one. -/
def rayAttacks (b : Board) (file rank df dr : Int) : Nat → Nat
  | 0 => 0
  | fuel + 1 =>
    let tf := file + df
    let tr := rank + dr
    if 0 ≤ tf ∧ tf ≤ 7 ∧ 0 ≤ tr ∧ tr ≤ 7 then
      let ts := tr * 8 + tf
      let here := setBit 0 ts
      if getBit b.all_occupancy ts then here
      else here ||| rayAttacks b tf tr df dr fuel
    else 0

/-- Board.get_sliding_attacks. -/
def getSlidingAttacks (b : Board) (square : Int) : Nat :=
  let file := square % 8
  let rank := square / 8
  [(0, 1), (0, -1), (1, 0), (-1, 0), (1, 1), (1, -1), (-1, 1), (-1, -1)].foldl
    (fun acc (d : Int × Int) => acc ||| rayAttacks b file rank d.1 d.2 7) 0

/-- Board.is_square_attacked. -/
def isSquareAttacked (b : Board) (square : Int) (byColor : Nat) : Bool :=
  let enemyColor := if byColor = BLACK then WHITE else BLACK
  if pawnAttacks enemyColor square &&& piecesBB b byColor PAWN ≠ 0 then true
  else if knightAttacks square &&& piecesBB b byColor KNIGHT ≠ 0 then true
  else if kingAttacks square &&& piecesBB b byColor KING ≠ 0 then true
  else if getSlidingAttacks b square &&&
      (piecesBB b byColor BISHOP ||| piecesBB b byColor ROOK ||| piecesBB b byColor QUEEN) ≠ 0
    then true
  else false

/-- Board.is_in_check.  The king square is computed by the source as
`(king_bitboard - 1).bit_length() - 1`, one below the actual king bit. -/
def isInCheck (b : Board) (color : Nat) : Bool :=
  let kb := piecesBB b color KING
  if kb = 0 then false
  else
    let kingSquare : Int := (pyBitLength (kb - 1) : Int) - 1
    let enemy := if color = WHITE then BLACK else WHITE
    isSquareAttacked b kingSquare enemy

/-- Squares popped from a bitboard by the pop_lsb loop, in pop order.
Bitboards always stay below 2 ^ 64 here, so 64 iterations always empty
the board and the fuel never runs out. -/
def popSquares : Nat → Nat → List Int
  | _, 0 => []
  | bb, fuel + 1 =>
    if bb = 0 then []
    else
      let p := popLsb bb
      p.2 :: popSquares p.1 fuel

/-- Board._generate_pawn_moves. -/
def generatePawnMoves (b : Board) (square : Int) : List Move :=
  let file := square % 8
  let rank := square / 8
  let direction : Int := if b.to_move = WHITE then 1 else -1
  let startRank : Int := if b.to_move = WHITE then 1 else 6
  let promotionRank : Int := if b.to_move = WHITE then 7 else 0
  let targetRank := rank + direction
  let forwardMoves :=
    if 0 ≤ targetRank ∧ targetRank ≤ 7 then
      let targetSquare := targetRank * 8 + file
      if ¬ getBit b.all_occupancy targetSquare then
        let single :=
          if targetRank = promotionRank then
            [QUEEN, ROOK, BISHOP, KNIGHT].map fun pp =>
              { from_square := square, to_square := targetSquare, promotion := some pp : Move }
          else [{ from_square := square, to_square := targetSquare : Move }]
        if rank = startRank then
          let doubleTarget := (targetRank + direction) * 8 + file
          if ¬ getBit b.all_occupancy doubleTarget then
            single ++ [{ from_square := square, to_square := doubleTarget : Move }]
          else single
        else single
      else []
    else []
  let enemyColor := if b.to_move = WHITE then BLACK else WHITE
  let captures := ([-1, 1] : List Int).foldl
    (fun acc fileOffset =>
      let tf := file + fileOffset
      let tr := rank + direction
      if 0 ≤ tf ∧ tf ≤ 7 ∧ 0 ≤ tr ∧ tr ≤ 7 then
        let ts := tr * 8 + tf
        let acc1 :=
          if getBit ((b.color_occupancy).getD enemyColor 0) ts then
            if tr = promotionRank then
              acc ++ ([QUEEN, ROOK, BISHOP, KNIGHT].map fun pp =>
                { from_square := square, to_square := ts, promotion := some pp : Move })
            else acc ++ [{ from_square := square, to_square := ts : Move }]
          else acc
        match b.en_passant_square with
        | some ep => if ep ≠ 0 ∧ ts = ep then
            acc1 ++ [{ from_square := square, to_square := ts, is_en_passant := true : Move }]
          else acc1
        | none => acc1
      else acc) []
  forwardMoves ++ captures

/-- Complement against Python `~occ` then `&` with a 64-bit table mask:
for naturals this is AND with the complement below 2 ^ 64 (table masks
only carry bits below 64). -/
def natLnot64 (n : Nat) : Nat := (2 ^ 64 - 1) - (n &&& (2 ^ 64 - 1))

/-- Board._generate_knight_moves: table lookup minus own occupancy, then
pop_lsb over the result (so targets are also one below the attack bit). -/
def generateKnightMoves (b : Board) (square : Int) : List Move :=
  let attacks := knightAttacks square &&& natLnot64 ((b.color_occupancy).getD b.to_move 0)
  (popSquares attacks 64).map fun ts => { from_square := square, to_square := ts : Move }

/-- Board._generate_king_moves, including the castling clauses. -/
def generateKingMoves (b : Board) (square : Int) : List Move :=
  let attacks := kingAttacks square &&& natLnot64 ((b.color_occupancy).getD b.to_move 0)
  let normal := (popSquares attacks 64).map
    fun ts => { from_square := square, to_square := ts : Move }
  if ¬ isInCheck b b.to_move then
    if b.to_move = WHITE then
      let ks :=
        if b.castleWK ∧ b.all_occupancy &&& 0x60 = 0 ∧
            ¬ isSquareAttacked b 5 BLACK ∧ ¬ isSquareAttacked b 6 BLACK then
          [{ from_square := square, to_square := 6, is_castling := true : Move }]
        else []
      let qs :=
        if b.castleWQ ∧ b.all_occupancy &&& 0x0E = 0 ∧
            ¬ isSquareAttacked b 3 BLACK ∧ ¬ isSquareAttacked b 2 BLACK then
          [{ from_square := square, to_square := 2, is_castling := true : Move }]
        else []
      normal ++ ks ++ qs
    else
      let ks :=
        if b.castleBK ∧ b.all_occupancy &&& 0x6000000000000000 = 0 ∧
            ¬ isSquareAttacked b 61 WHITE ∧ ¬ isSquareAttacked b 62 WHITE then
          [{ from_square := square, to_square := 62, is_castling := true : Move }]
        else []
      let qs :=
        if b.castleBQ ∧ b.all_occupancy &&& 0x0E00000000000000 = 0 ∧
            ¬ isSquareAttacked b 59 WHITE ∧ ¬ isSquareAttacked b 58 WHITE then
          [{ from_square := square, to_square := 58, is_castling := true : Move }]
        else []
      normal ++ ks ++ qs
  else normal

/-- One ray of Board._generate_sliding_moves: stop before a friendly
piece, include and stop at any other occupied square. -/
def slideMovesRay (b : Board) (origin : Int) (file rank df dr : Int) : Nat → List Move
  | 0 => []
  | fuel + 1 =>
    let tf := file + df
    let tr := rank + dr
    if 0 ≤ tf ∧ tf ≤ 7 ∧ 0 ≤ tr ∧ tr ≤ 7 then
      let ts := tr * 8 + tf
      if getBit ((b.color_occupancy).getD b.to_move 0) ts then []
      else
        let m : Move := { from_square := origin, to_square := ts }
        if getBit b.all_occupancy ts then [m]
        else m :: slideMovesRay b origin tf tr df dr fuel
    else []

/-- Board._generate_sliding_moves. -/
def generateSlidingMoves (b : Board) (square : Int) (pt : Nat) : List Move :=
  let file := square % 8
  let rank := square / 8
  let straight :=
    if pt = ROOK ∨ pt = QUEEN then
      ([(0, 1), (0, -1), (1, 0), (-1, 0)] : List (Int × Int)).foldl
        (fun acc d => acc ++ slideMovesRay b square file rank d.1 d.2 7) []
    else []
  let diagonal :=
    if pt = BISHOP ∨ pt = QUEEN then
      ([(1, 1), (1, -1), (-1, 1), (-1, -1)] : List (Int × Int)).foldl
        (fun acc d => acc ++ slideMovesRay b square file rank d.1 d.2 7) []
    else []
  straight ++ diagonal

/-- Board._generate_piece_moves. -/
def generatePieceMoves (b : Board) (square : Int) (pt : Nat) : List Move :=
  if pt = PAWN then generatePawnMoves b square
  else if pt = KNIGHT then generateKnightMoves b square
  else if pt = BISHOP then generateSlidingMoves b square BISHOP
  else if pt = ROOK then generateSlidingMoves b square ROOK
  else if pt = QUEEN then generateSlidingMoves b square QUEEN
  else if pt = KING then generateKingMoves b square
  else []

/-- Board.generate_pseudo_legal_moves. -/
def generatePseudoLegalMoves (b : Board) : List Move :=
  (List.range 6).foldl
    (fun acc pt =>
      acc ++ ((popSquares (piecesBB b b.to_move pt) 64).foldl
        (fun acc2 sq => acc2 ++ generatePieceMoves b sq pt) []))
    []

/-- Board._handle_castling. -/
def handleCastling (b : Board) (m : Move) : Board :=
  let color := b.to_move
  let b1 := removePiece b m.from_square KING color
  let rookFrom : Int :=
    if m.to_square = 6 ∨ m.to_square = 62 then (if color = WHITE then 7 else 63)
    else (if color = WHITE then 0 else 56)
  let rookTo : Int :=
    if m.to_square = 6 ∨ m.to_square = 62 then (if color = WHITE then 5 else 61)
    else (if color = WHITE then 3 else 59)
  let b2 := removePiece b1 rookFrom ROOK color
  let b3 := setPiece b2 m.to_square KING color
  setPiece b3 rookTo ROOK color

/-- Board._handle_en_passant. -/
def handleEnPassant (b : Board) (m : Move) : Board :=
  let color := b.to_move
  let enemy := if color = WHITE then BLACK else WHITE
  let b1 := removePiece b m.from_square PAWN color
  let b2 := setPiece b1 m.to_square PAWN color
  let capturedPawnSquare := if color = WHITE then m.to_square - 8 else m.to_square + 8
  removePiece b2 capturedPawnSquare PAWN enemy

/-- Board._update_castling_rights.  The captured argument is the value of
move.captured_piece at this point of make_move: the piece initially found
on the target square, overridden to a pawn by the en passant handler. -/
def updateCastlingRights (b : Board) (m : Move) (pt color : Nat)
    (captured : Option Nat) : Board :=
  let b1 :=
    if pt = KING then
      if color = WHITE then { b with castleWK := false, castleWQ := false }
      else { b with castleBK := false, castleBQ := false }
    else if pt = ROOK then
      if color = WHITE then
        if m.from_square = 0 then { b with castleWQ := false }
        else if m.from_square = 7 then { b with castleWK := false }
        else b
      else
        if m.from_square = 56 then { b with castleBQ := false }
        else if m.from_square = 63 then { b with castleBK := false }
        else b
    else b
  if captured = some ROOK then
    if m.to_square = 0 then { b1 with castleWQ := false }
    else if m.to_square = 7 then { b1 with castleWK := false }
    else if m.to_square = 56 then { b1 with castleBQ := false }
    else if m.to_square = 63 then { b1 with castleBK := false }
    else b1
  else b1

/-- Board._update_en_passant (to_move is still the mover here). -/
def updateEnPassant (b : Board) (m : Move) (pt : Nat) : Board :=
  let b0 := { b with en_passant_square := none }
  if pt = PAWN then
    let fromRank := m.from_square / 8
    let toRank := m.to_square / 8
    if (toRank - fromRank).natAbs = 2 then
      let ep := m.from_square + (if b0.to_move = WHITE then 8 else -8)
      { b0 with en_passant_square := some ep }
    else b0
  else b0

/-- Board._make_move_internal.  A move from an empty square is a no-op,
as in the source. -/
def makeMoveInternal (b : Board) (m : Move) : Board :=
  match getPieceAt b m.from_square with
  | none => b
  | some (pt, color) =>
    let captured := getPieceAt b m.to_square
    let capturedPiece : Option Nat :=
      if ¬ m.is_castling ∧ m.is_en_passant then some PAWN else captured.map (·.1)
    let b1 :=
      if m.is_castling then handleCastling b m
      else if m.is_en_passant then handleEnPassant b m
      else
        let bA := removePiece b m.from_square pt color
        let bB := match captured with
          | some c => removePiece bA m.to_square c.1 c.2
          | none => bA
        match m.promotion with
        | some promo => setPiece bB m.to_square promo color
        | none => setPiece bB m.to_square pt color
    let b2 := updateOccupancy b1
    let b3 := updateCastlingRights b2 m pt color capturedPiece
    let b4 := updateEnPassant b3 m pt
    let b5 :=
      if pt = PAWN ∨ captured.isSome then { b4 with halfmove_clock := 0 }
      else { b4 with halfmove_clock := b4.halfmove_clock + 1 }
    let b6 :=
      if b5.to_move = BLACK then { b5 with fullmove_number := b5.fullmove_number + 1 }
      else b5
    { b6 with to_move := if b6.to_move = WHITE then BLACK else WHITE }

/-- Board.is_legal_move: make the move on a copy and test whether the king
of the side that (nominally) just moved is in check.  The save and
restore of the source is the purity of this function. -/
def isLegalMove (b : Board) (m : Move) : Bool :=
  let b' := makeMoveInternal b m
  let previousColor := if b'.to_move = WHITE then BLACK else WHITE
  ¬ isInCheck b' previousColor

/-- Board.generate_legal_moves. -/
def generateLegalMoves (b : Board) : List Move :=
  (generatePseudoLegalMoves b).filter (isLegalMove b)

/-- Decimal digits of a natural number, as Python str renders it.  The
fuel of 30 covers every number that occurs here. -/
def natDigits : Nat → Nat → List Char
  | 0, _ => []
  | _, 0 => ['0']
  | fuel + 1, n =>
    if n < 10 then [Char.ofNat (48 + n)]
    else natDigits fuel (n / 10) ++ [Char.ofNat (48 + n % 10)]

/-- Python str of a natural number. -/
def pyStrNat (n : Nat) : List Char := natDigits 30 n

/-- Square.__str__ (algebraic notation). -/
def squareStr (sq : Int) : List Char :=
  Char.ofNat (97 + (sq % 8)).toNat :: pyStrNat ((sq / 8) + 1).toNat

/-- FEN piece letter for a piece type and color. -/
def pieceSymbol (pt color : Nat) : Char :=
  let sym := (['p', 'n', 'b', 'r', 'q', 'k']).getD pt 'x'
  if color = WHITE then sym.toUpper else sym

/-- One rank of the FEN piece placement, with run-length encoded empties,
as in Board.to_fen. -/
def rankFen (b : Board) (rank : Int) : List Char :=
  let res := ([0, 1, 2, 3, 4, 5, 6, 7] : List Int).foldl
    (fun (st : List Char × Nat) file =>
      match getPieceAt b (rank * 8 + file) with
      | some p =>
        let st1 := if st.2 > 0 then (st.1 ++ pyStrNat st.2, 0) else st
        (st1.1 ++ [pieceSymbol p.1 p.2], 0)
      | none => (st.1, st.2 + 1)) ([], 0)
  if res.2 > 0 then res.1 ++ pyStrNat res.2 else res.1

/-- Board.to_fen. -/
def toFen (b : Board) : List Char :=
  let placement :=
    List.intercalate ['/'] (([7, 6, 5, 4, 3, 2, 1, 0] : List Int).map (rankFen b))
  let active := if b.to_move = WHITE then ['w'] else ['b']
  let castling :=
    (if b.castleWK then ['K'] else []) ++ (if b.castleWQ then ['Q'] else []) ++
    (if b.castleBK then ['k'] else []) ++ (if b.castleBQ then ['q'] else [])
  let castling := if castling.isEmpty then ['-'] else castling
  let ep := match b.en_passant_square with
    | some sq => squareStr sq
    | none => ['-']
  placement ++ [' '] ++ active ++ [' '] ++ castling ++ [' '] ++ ep ++ [' '] ++
    pyStrNat b.halfmove_clock ++ [' '] ++ pyStrNat b.fullmove_number

/-- Python str.split() with no separator: split on whitespace runs,
discarding empties. -/
def splitWsAux : List Char → List Char → List (List Char)
  | [], cur => if cur.isEmpty then [] else [cur.reverse]
  | c :: rest, cur =>
    if c = ' ' ∨ c = '\t' ∨ c = '\n' then
      if cur.isEmpty then splitWsAux rest []
      else cur.reverse :: splitWsAux rest []
    else splitWsAux rest (c :: cur)

/-- Python fen.strip().split(). -/
def splitWs (l : List Char) : List (List Char) := splitWsAux l []

/-- Python int() on a string of decimal digits. -/
def parseNat (l : List Char) : Nat :=
  l.foldl (fun acc c => acc * 10 + (c.toNat - 48)) 0

/-- FEN piece letters, as in the piece_chars dict of Board.from_fen. -/
def pieceOfChar (c : Char) : Option (Nat × Nat) :=
  if c = 'P' then some (PAWN, WHITE) else if c = 'N' then some (KNIGHT, WHITE)
  else if c = 'B' then some (BISHOP, WHITE) else if c = 'R' then some (ROOK, WHITE)
  else if c = 'Q' then some (QUEEN, WHITE) else if c = 'K' then some (KING, WHITE)
  else if c = 'p' then some (PAWN, BLACK) else if c = 'n' then some (KNIGHT, BLACK)
  else if c = 'b' then some (BISHOP, BLACK) else if c = 'r' then some (ROOK, BLACK)
  else if c = 'q' then some (QUEEN, BLACK) else if c = 'k' then some (KING, BLACK)
  else none

/-- Python '0' <= c <= '9' via str.isdigit on our ASCII inputs. -/
def charIsDigit (c : Char) : Bool := 48 ≤ c.toNat ∧ c.toNat ≤ 57

/-- Board with no pieces and the constructor defaults of Board.__init__. -/
def emptyBoard : Board :=
  { pieces := [[0, 0, 0, 0, 0, 0], [0, 0, 0, 0, 0, 0]]
    color_occupancy := [0, 0]
    all_occupancy := 0
    to_move := WHITE
    castleWK := true, castleWQ := true, castleBK := true, castleBQ := true
    en_passant_square := none
    halfmove_clock := 0
    fullmove_number := 1
    move_history := []
    position_history := [] }

/-- Empty board with all castling rights cleared, the state from which
Board.from_fen rebuilds. -/
def noRightsBoard : Board :=
  { emptyBoard with castleWK := false, castleWQ := false, castleBK := false, castleBQ := false }

/-- Board.from_fen.  Every field the method writes is reconstructed; the
method overwrites all of them, so the result does not depend on the prior
board.  Malformed input would raise in Python and is out of scope. -/
def fromFen (fen : List Char) : Board :=
  let parts := splitWs fen
  let placed := (parts.getD 0 []).foldl
    (fun (st : Board × Int × Int) c =>
      if c = '/' then (st.1, st.2.1 - 1, 0)
      else if charIsDigit c then (st.1, st.2.1, st.2.2 + ((c.toNat : Int) - 48))
      else match pieceOfChar c with
        | some p => (setPiece st.1 (st.2.1 * 8 + st.2.2) p.1 p.2, st.2.1, st.2.2 + 1)
        | none => st)
    (noRightsBoard, 7, 0)
  let b1 := updateOccupancy placed.1
  let active := parts.getD 1 []
  let castlePart := parts.getD 2 []
  let epPart := parts.getD 3 []
  let epSquare : Option Int :=
    if epPart = ['-'] then none
    else
      let file := ((epPart.getD 0 'a').toNat : Int) - 97
      let rank := ((epPart.getD 1 '1').toNat : Int) - 48 - 1
      some (rank * 8 + file)
  { b1 with
    to_move := if active = ['w'] then WHITE else BLACK
    castleWK := castlePart.contains 'K'
    castleWQ := castlePart.contains 'Q'
    castleBK := castlePart.contains 'k'
    castleBQ := castlePart.contains 'q'
    en_passant_square := epSquare
    halfmove_clock := parseNat (parts.getD 4 [])
    fullmove_number := parseNat (parts.getD 5 [])
    move_history := []
    position_history := [fen] }

/-- Board.make_move: re-validate, apply, append to both histories. -/
def makeMove (b : Board) (m : Move) : Bool × Board :=
  if ¬ isLegalMove b m then (false, b)
  else
    let b' := makeMoveInternal b m
    (true, { b' with
      move_history := b'.move_history ++ [m]
      position_history := b'.position_history ++ [toFen b'] })

/-- Board.setup_starting_position as run by the constructor. -/
def initialBoard : Board :=
  let pieceSetup : List (Nat × List Int) :=
    [(ROOK, [0, 7, 56, 63]), (KNIGHT, [1, 6, 57, 62]), (BISHOP, [2, 5, 58, 61]),
     (QUEEN, [3, 59]), (KING, [4, 60])]
  let b1 := pieceSetup.foldl
    (fun bb p => p.2.foldl
      (fun bb2 sq => setPiece bb2 sq p.1 (if sq < 32 then WHITE else BLACK)) bb)
    emptyBoard
  let b2 := (List.range 8).foldl (fun bb i => setPiece bb (8 + (i : Int)) PAWN WHITE) b1
  let b3 := (List.range 8).foldl (fun bb i => setPiece bb (48 + (i : Int)) PAWN BLACK) b2
  updateOccupancy b3

/-- Number of legal move sequences of the given length, counted by
recursively calling Board.generate_legal_moves and applying each returned
move with Board.make_move, as the perft oracle of the spec prescribes. -/
def perft : Nat → Board → Nat
  | 0, _ => 1
  | d + 1, b => ((generateLegalMoves b).map (fun m => perft d (makeMove b m).2)).sum

/-- Piece values of MoveOrderer.PIECE_VALUES and
StaticExchangeEvaluator.PIECE_VALUES (they coincide). -/
def seePieceValue (pt : Nat) : Int :=
  if pt = PAWN then 100 else if pt = KNIGHT then 320 else if pt = BISHOP then 330
  else if pt = ROOK then 500 else if pt = QUEEN then 900 else 20000

/-- The stepping loop of StaticExchangeEvaluator.sliding_piece_attacks:
walk from the square after the piece toward the target, failing on any
occupied square strictly between.  Sixteen steps always suffice for the
geometry-checked calls that reach this loop. -/
def slidingWalk (b : Board) (step target : Int) : Int → Nat → Bool
  | _, 0 => false
  | cur, fuel + 1 =>
    if cur = target then true
    else if (getPieceAt b cur).isSome then false
    else slidingWalk b step target (cur + step) fuel

/-- StaticExchangeEvaluator.sliding_piece_attacks. -/
def slidingPieceAttacks (b : Board) (pieceSquare : Int) (pt : Nat) (target : Int) : Bool :=
  let fd := target % 8 - pieceSquare % 8
  let rd := target / 8 - pieceSquare / 8
  let isDiag := fd.natAbs = rd.natAbs
  let isStraight := fd = 0 ∨ rd = 0
  if pt = BISHOP ∧ ¬ isDiag then false
  else if pt = ROOK ∧ ¬ isStraight then false
  else if pt = QUEEN ∧ ¬ (isDiag ∨ isStraight) then false
  else if fd = 0 ∧ rd = 0 then false
  else
    let stepF : Int := if fd = 0 then 0 else if fd > 0 then 1 else -1
    let stepR : Int := if rd = 0 then 0 else if rd > 0 then 1 else -1
    slidingWalk b (stepR * 8 + stepF) target (pieceSquare + stepR * 8 + stepF) 16

/-- StaticExchangeEvaluator.piece_attacks_square. -/
def pieceAttacksSquare (b : Board) (pieceSquare : Int) (pt : Nat) (target : Int) : Bool :=
  if pt = PAWN then
    match getPieceAt b pieceSquare with
    | none => false
    | some p => getBit (pawnAttacks p.2 pieceSquare) target
  else if pt = KNIGHT then getBit (knightAttacks pieceSquare) target
  else if pt = KING then getBit (kingAttacks pieceSquare) target
  else if pt = BISHOP ∨ pt = ROOK ∨ pt = QUEEN then
    slidingPieceAttacks b pieceSquare pt target
  else false

/-- StaticExchangeEvaluator.get_attackers.  The source collects a Python
set of small ints; only the multiset of attacker piece values influences
the result (the loop below always extracts a least-valued element), so a
list in pop order is a faithful model. -/
def getAttackers (b : Board) (square : Int) (color : Nat) : List Int :=
  (List.range 6).foldl
    (fun acc pt =>
      acc ++ ((popSquares (piecesBB b color pt) 64).filter
        (fun psq => pieceAttacksSquare b psq pt square)))
    []

/-- The least-valuable-attacker scan of StaticExchangeEvaluator.evaluate:
first strictly smaller value wins; squares without a piece are skipped. -/
def seeFindLva (b : Board) (atts : List Int) : Option Int × Int :=
  atts.foldl
    (fun (st : Option Int × Int) sq =>
      match getPieceAt b sq with
      | some p =>
        let v := seePieceValue p.1
        if v < st.2 then (some sq, v) else st
      | none => st)
    (none, 99999)

/-- The exchange loop of StaticExchangeEvaluator.evaluate, accumulating
the gain sequence; the fuel of 31 realizes the depth-32 safety cap. -/
def seeLoop (b : Board) :
    Nat → List Int → List Int → Int → Nat → List Int → List Int
  | 0, _, _, _, _, gains => gains
  | fuel + 1, wa, ba, curVal, curColor, gains =>
    let atts := if curColor = BLACK then ba else wa
    match seeFindLva b atts with
    | (none, _) => gains
    | (some attSq, mn) =>
      let gains' := gains ++ [curVal - gains.getLastD 0]
      let wa' := if curColor = BLACK then wa else wa.filter (· ≠ attSq)
      let ba' := if curColor = BLACK then ba.filter (· ≠ attSq) else ba
      seeLoop b fuel wa' ba' mn (if curColor = WHITE then BLACK else WHITE) gains'

/-- The back-to-front minimax fold over the gain sequence. -/
def seeFold : List Int → Int
  | [] => 0
  | [g] => g
  | g :: rest => -(max (-g) (seeFold rest))

/-- StaticExchangeEvaluator.evaluate. -/
def seeEvaluate (b : Board) (m : Move) : Int :=
  match getPieceAt b m.to_square with
  | none => 0
  | some captured =>
    let wa0 := getAttackers b m.to_square WHITE
    let ba0 := getAttackers b m.to_square BLACK
    let wa := if b.to_move = WHITE then wa0.filter (· ≠ m.from_square) else wa0
    let ba := if b.to_move = WHITE then ba0 else ba0.filter (· ≠ m.from_square)
    match getPieceAt b m.from_square with
    | none => 0
    | some moving =>
      let gains := seeLoop b 31 wa ba (seePieceValue moving.1)
        (if b.to_move = WHITE then BLACK else WHITE) [seePieceValue captured.1]
      seeFold gains

/-- MoveOrderer.moves_equal: from, to and promotion only. -/
def movesEqual (m1 m2 : Move) : Bool :=
  m1.from_square == m2.from_square && m1.to_square == m2.to_square &&
    m1.promotion == m2.promotion

/-- The killer-move and history-table state of MoveOrderer. -/
structure OrdererState where
  killers : List (List (Option Move))
  historyTbl : List ((Int × Int) × Int)
deriving DecidableEq, Repr

/-- MoveOrderer.__init__: two empty killer slots for each of 64 plies and
an empty history dict. -/
def initOrderer : OrdererState :=
  { killers := List.replicate 64 [none, none], historyTbl := [] }

/-- history_table.get(move_key, 0). -/
def historyGet (t : List ((Int × Int) × Int)) (k : Int × Int) : Int :=
  match t.find? (fun e => e.1 = k) with
  | some e => e.2
  | none => 0

/-- Python dict assignment history_table[move_key] = v. -/
def historySet (t : List ((Int × Int) × Int)) (k : Int × Int) (v : Int) :
    List ((Int × Int) × Int) :=
  if t.any (fun e => e.1 = k) then
    t.map (fun e => if e.1 = k then (k, v) else e)
  else t ++ [(k, v)]

/-- MoveOrderer.score_move.  A capture is scored only when both target
and origin squares hold pieces; otherwise control falls through to the
promotion, killer and history clauses, as in the source. -/
def scoreMove (ord : OrdererState) (b : Board) (m : Move) (ply : Nat)
    (hashMove : Option Move) : Int :=
  let hashHit := match hashMove with
    | some hm => movesEqual m hm
    | none => false
  if hashHit then 10000
  else
    let captureScore : Option Int :=
      match getPieceAt b m.to_square, getPieceAt b m.from_square with
      | some captured, some moving =>
        let s := seeEvaluate b m
        if s ≥ 0 then some (8000 + seePieceValue captured.1 - seePieceValue moving.1)
        else some (100 + s)
      | _, _ => none
    match captureScore with
    | some sc => sc
    | none =>
      match m.promotion with
      | some pp => 8000 + seePieceValue pp
      | none =>
        let killerHit :=
          if ply < 64 then
            (ord.killers.getD ply []).any fun k =>
              match k with
              | some km => movesEqual m km
              | none => false
          else false
        if killerHit then 7000
        else 1000 + historyGet ord.historyTbl (m.from_square, m.to_square)

/-- Insert into a list sorted by descending score, after strictly greater
scores and before equal ones. -/
def insertMoveDesc (x : Move × Int) : List (Move × Int) → List (Move × Int)
  | [] => [x]
  | y :: rest => if y.2 > x.2 then y :: insertMoveDesc x rest else x :: y :: rest

/-- Stable descending sort by score; agrees with the stable Python
sort(key=score, reverse=True) of MoveOrderer.order_moves. -/
def sortMovesDesc : List (Move × Int) → List (Move × Int)
  | [] => []
  | x :: xs => insertMoveDesc x (sortMovesDesc xs)

/-- MoveOrderer.order_moves. -/
def orderMoves (ord : OrdererState) (b : Board) (moves : List Move) (ply : Nat)
    (hashMove : Option Move) : List Move :=
  (sortMovesDesc (moves.map fun m => (m, scoreMove ord b m ply hashMove))).map (·.1)

/-- MoveOrderer.update_killer_moves. -/
def updateKillerMoves (ord : OrdererState) (m : Move) (ply : Nat) (b : Board) :
    OrdererState :=
  if ply < 64 then
    if (getPieceAt b m.to_square).isSome then ord
    else
      let slots := ord.killers.getD ply []
      let k0 := slots.getD 0 none
      let alreadyFirst := match k0 with
        | some km => movesEqual m km
        | none => false
      if alreadyFirst then ord
      else { ord with killers := ord.killers.set ply [some m, k0] }
  else ord

/-- MoveOrderer.update_history. -/
def updateHistory (ord : OrdererState) (m : Move) (depth : Int) : OrdererState :=
  let k := (m.from_square, m.to_square)
  { ord with historyTbl := historySet ord.historyTbl k (historyGet ord.historyTbl k + depth * depth) }

/-- QuiescenceSearch.generate_quiescence_moves: captures, promotions, and
moves whose trial application leaves is_in_check true for the color the
source computes after the side to move has already been toggled. -/
def generateQuiescenceMoves (b : Board) : List Move :=
  (generatePseudoLegalMoves b).foldl
    (fun acc m =>
      if (getPieceAt b m.to_square).isSome then acc ++ [m]
      else if m.promotion.isSome then acc ++ [m]
      else
        let b' := makeMoveInternal b m
        let enemyColor := if b'.to_move = WHITE then BLACK else WHITE
        if isInCheck b' enemyColor then acc ++ [m] else acc)
    []

/-- QuiescenceSearch.unmake_last_move: pop both histories and reload the
previous FEN (Board.from_fen then resets both histories itself). -/
def unmakeLastMove (b : Board) : Board :=
  if b.move_history.isEmpty then b
  else
    let b1 := { b with move_history := b.move_history.dropLast }
    if b1.position_history.isEmpty then b1
    else
      let b2 := { b1 with position_history := b1.position_history.dropLast }
      match b2.position_history.getLast? with
      | some fen => fromFen fen
      | none => b2

/-- QuiescenceSearch.search, with the Board threaded through the
make-move and unmake-last-move calls; returns the score and the board
the call leaves behind.  The fuel bounds recursion depth; the depth cap
of 16 fires first on every call that starts at depth 0 with fuel 20. -/
def qsearch (ev : Board → Int) (ord : OrdererState) :
    Nat → Board → Int → Int → Nat → Int × Board
  | 0, b, _, _, _ => (0, b)
  | fuel + 1, b, alpha0, beta, depth =>
    let sp := ev b
    let standPat := if b.to_move = BLACK then -sp else sp
    if standPat ≥ beta then (beta, b)
    else
      let alpha1 := if standPat > alpha0 then standPat else alpha0
      if depth ≥ 16 then (standPat, b)
      else
        let moves := generateQuiescenceMoves b
        if moves.isEmpty then (standPat, b)
        else
          let ordered := orderMoves ord b moves depth none
          let final := ordered.foldl
            (fun (st : Int × Board × Option Int) m =>
              match st.2.2 with
              | some _ => st
              | none =>
                let alpha := st.1
                let mk := makeMove st.2.1 m
                if ¬ mk.1 then (alpha, mk.2, none)
                else
                  let r := qsearch ev ord fuel mk.2 (-beta) (-alpha) (depth + 1)
                  let score := -r.1
                  let b2 := unmakeLastMove r.2
                  if score ≥ beta then (beta, b2, some beta)
                  else if score > alpha then (score, b2, none)
                  else (alpha, b2, none))
            (alpha1, b, none)
          match final.2.2 with
          | some v => (v, final.2.1)
          | none => (final.1, final.2.1)

/-- Search bookkeeping of NegascoutSearch: the wall-clock poll counter,
the cooperative stop flag, the shared move orderer tables, and the node
and cutoff counters.  The unused transposition table is omitted. -/
structure SState where
  polls : Nat
  should_stop : Bool
  ord : OrdererState
  nodes : Nat
  cutoffs : Nat
deriving DecidableEq, Repr

/-- Fresh per-search state, as NegascoutSearch.search initializes it. -/
def initSState : SState :=
  { polls := 0, should_stop := false, ord := initOrderer, nodes := 0, cutoffs := 0 }

/-- NegascoutSearch.is_draw, with the external
Evaluation.is_insufficient_material modelled from the spec as an abstract
total predicate (the method does not exist in src/evaluation.py). -/
def isDraw (insuff : Board → Bool) (b : Board) : Bool :=
  if b.halfmove_clock ≥ 100 then true
  else
    let rep :=
      if b.position_history.length ≥ 6 then
        let cur := (splitWs (toFen b)).getD 0 []
        (b.position_history.countP (fun f => f = cur)) ≥ 3
      else false
    if rep then true else insuff b

/-- Board._restore_state applied after a recursive call: the eight core
fields come back from the snapshot, the histories keep whatever the
recursion (via quiescence) left behind. -/
def restoreCore (old cur : Board) : Board :=
  { cur with
    pieces := old.pieces
    color_occupancy := old.color_occupancy
    all_occupancy := old.all_occupancy
    to_move := old.to_move
    castleWK := old.castleWK, castleWQ := old.castleWQ
    castleBK := old.castleBK, castleBQ := old.castleBQ
    en_passant_square := old.en_passant_square
    halfmove_clock := old.halfmove_clock
    fullmove_number := old.fullmove_number }

/-- NegascoutSearch.negascout.  The evaluator and the insufficient
material test are the abstract external interface; expired models the
wall-clock test `time.time() - start > limit` at each entry, indexed by
the running poll count.  Returns the score, the board left behind, and
the updated search state. -/
def negascout (ev : Board → Int) (insuff : Board → Bool) (expired : Nat → Bool) :
    Nat → Board → Int → Int → Int → Nat → Bool → SState → Int × Board × SState
  | 0, b, _, _, _, _, _, s => (0, b, s)
  | fuel + 1, b, depth, alpha0, beta, ply, isPv, s0 =>
    let s1 := { s0 with polls := s0.polls + 1 }
    if expired s1.polls then (0, b, { s1 with should_stop := true })
    else
      let s2 := { s1 with nodes := s1.nodes + 1 }
      if depth ≤ 0 then
        let q := qsearch ev s2.ord 20 b alpha0 beta 0
        (q.1, q.2, s2)
      else
        let moves := generateLegalMoves b
        if moves.isEmpty then
          (if isInCheck b b.to_move then -20000 + (ply : Int) else 0, b, s2)
        else if isDraw insuff b then (0, b, s2)
        else
          let ordered := orderMoves s2.ord b moves ply none
          let final := ordered.foldl
            (fun (st : Bool × Int × Int × Board × SState × Bool) m =>
              match st with
              | (first, best, alpha, bCur, s, broke) =>
                if broke ∨ s.should_stop then (first, best, alpha, bCur, s, broke)
                else
                  let bNext := makeMoveInternal bCur m
                  let r1 :=
                    if first then
                      negascout ev insuff expired fuel bNext (depth - 1) (-beta) (-alpha)
                        (ply + 1) isPv s
                    else
                      let probe := negascout ev insuff expired fuel bNext (depth - 1)
                        (-alpha - 1) (-alpha) (ply + 1) false s
                      let probeScore := -probe.1
                      if alpha < probeScore ∧ probeScore < beta ∧ isPv then
                        let re := negascout ev insuff expired fuel probe.2.1 (depth - 1)
                          (-beta) (-probeScore) (ply + 1) true probe.2.2
                        re
                      else probe
                  let score := -r1.1
                  let bRest := restoreCore bCur r1.2.1
                  let s' := r1.2.2
                  let best' := if score > best then score else best
                  let alpha' := if score > alpha then score else alpha
                  if alpha' ≥ beta then
                    let ord' := updateHistory
                      (updateKillerMoves s'.ord m ply bRest) m depth
                    (false, best', alpha', bRest,
                      { s' with cutoffs := s'.cutoffs + 1, ord := ord' }, true)
                  else (false, best', alpha', bRest, s', false))
            (true, -999999, alpha0, b, s2, false)
          (final.2.1, final.2.2.2.1, final.2.2.2.2.1)

/-- NegascoutSearch.search: iterative deepening plus the root re-search
loop that extracts the best move.  Returns best move, best score, the
final state, and the board left behind. -/
def negaSearch (ev : Board → Int) (insuff : Board → Bool) (expired : Nat → Bool)
    (b0 : Board) (maxDepth : Nat) : Option Move × Int × SState × Board :=
  (List.range maxDepth).foldl
    (fun (st : Option Move × Int × SState × Board) cur0 =>
      match st with
      | (bestMove, bestScore, s, b) =>
        if s.should_stop then (bestMove, bestScore, s, b)
        else
          let fuelN : Nat := cur0 + 3
          let cur : Int := (cur0 : Int) + 1
          let r := negascout ev insuff expired fuelN b cur (-999999) 999999 0 true s
          let score := r.1
          let b := r.2.1
          let s := r.2.2
          if s.should_stop then (bestMove, bestScore, s, b)
          else
            let moves := generateLegalMoves b
            if moves.isEmpty then (bestMove, bestScore, s, b)
            else
              let ordered := orderMoves s.ord b moves 0 none
              let rootRes := ordered.foldl
                (fun (rs : Option Move × Int × Int × Board × SState × Bool) m =>
                  match rs with
                  | (bm, bs, alpha, bCur, sCur, broke) =>
                    if broke then rs
                    else
                      let bNext := makeMoveInternal bCur m
                      let rr := negascout ev insuff expired fuelN bNext (cur - 1)
                        (-999999) (-alpha) 1 false sCur
                      let moveScore := -rr.1
                      let bRest := restoreCore bCur rr.2.1
                      let s' := rr.2.2
                      let upd := moveScore > alpha
                      let bm' := if upd then some m else bm
                      let bs' := if upd then score else bs
                      let alpha' := if upd then moveScore else alpha
                      (bm', bs', alpha', bRest, s', s'.should_stop))
                (bestMove, bestScore, -999999, b, s, false)
              (rootRes.1, rootRes.2.1, rootRes.2.2.2.2.1, rootRes.2.2.2.1))
    (none, 0, initSState, b0)

/-- Modelled from the spec: the reference oracle of the testable property
"PVS equals plain alpha-beta" (spec section 8), which is not part of the
source.  A plain full-window negamax over the same legal move generator,
with the same terminal scoring as negascout (checkmate -20000 + ply,
stalemate and draws 0) and the same leaf evaluation (the quiescence
search, given the full window), threading the board identically. -/
def refMinimax (ev : Board → Int) (insuff : Board → Bool) :
    Nat → Board → Nat → Int × Board
  | 0, b, _ =>
    let q := qsearch ev initOrderer 20 b (-999999) 999999 0
    (q.1, q.2)
  | d + 1, b, ply =>
    let moves := generateLegalMoves b
    if moves.isEmpty then
      (if isInCheck b b.to_move then -20000 + (ply : Int) else 0, b)
    else if isDraw insuff b then (0, b)
    else
      moves.foldl
        (fun (st : Int × Board) m =>
          let b1 := makeMoveInternal st.2 m
          let r := refMinimax ev insuff d b1 (ply + 1)
          let b2 := restoreCore st.2 r.2
          (if -r.1 > st.1 then -r.1 else st.1, b2))
        (-999999, b)

/-- A never-expiring clock: a time budget amply sufficient for the whole
search. -/
def neverExpired : Nat → Bool := fun _ => false

/-- An already-expired clock: the behavior of an arbitrarily small time
budget, for which the very first wall-clock poll reports expiry. -/
def alwaysExpired : Nat → Bool := fun _ => true

/-- A concrete abstract evaluator: pawn material only. -/
def pawnEval (b : Board) : Int :=
  10 * ((countBits (piecesBB b WHITE PAWN) : Int) - (countBits (piecesBB b BLACK PAWN) : Int))

/-- A concrete abstract evaluator: full material count (kings zero). -/
def matEval (b : Board) : Int :=
  [(PAWN, (100 : Int)), (KNIGHT, 320), (BISHOP, 330), (ROOK, 500), (QUEEN, 900)].foldl
    (fun acc p =>
      acc + p.2 * ((countBits (piecesBB b WHITE p.1) : Int) - (countBits (piecesBB b BLACK p.1) : Int)))
    0

/-- A concrete abstract evaluator with pseudo-random values derived from
the piece placement, used to exercise the window dependence of the
quiescence leaves. -/
def hashEval (b : Board) : Int :=
  let h := (List.range 2).foldl
    (fun h c => (List.range 6).foldl
      (fun h2 pt => (h2 * 1000003 + piecesBB b c pt) % (2 ^ 61 - 1)) h)
    0
  (h % 401 : Int) - 200

/-- A concrete insufficient-material oracle: never a draw by material. -/
def insuffNever : Board → Bool := fun _ => false

/-- Positions reachable from the standard starting position by moves the
engine itself generates as legal and accepts through Board.make_move. -/
inductive ReachableByLegal : Board → Prop where
  | base : ReachableByLegal initialBoard
  | step (b : Board) (m : Move) : ReachableByLegal b → m ∈ generateLegalMoves b →
      (makeMove b m).1 = true → ReachableByLegal (makeMove b m).2

/-- Apply a list of moves, requiring each to be pseudo-legal-generated and
accepted by Board.make_move; make_move itself performs the legality check,
so together this certifies membership in generate_legal_moves. -/
def applyLegalMoves : Board → List Move → Option Board
  | b, [] => some b
  | b, m :: rest =>
    if m ∈ generatePseudoLegalMoves b then
      let r := makeMove b m
      if r.1 then applyLegalMoves r.2 rest else none
    else none

/-- A move accepted by make_move passes is_legal_move. -/
theorem isLegal_of_makeMove_fst {b : Board} {m : Move}
    (h : (makeMove b m).1 = true) : isLegalMove b m = true := by
  by_cases hl : isLegalMove b m = true
  · exact hl
  · simp only [makeMove, hl, not_false_eq_true, if_pos] at h
    exact absurd h (by simp)

/-- A pseudo-legal move accepted by make_move is in the legal move list. -/
theorem mem_legal_of_pseudo_make {b : Board} {m : Move}
    (hp : m ∈ generatePseudoLegalMoves b) (hm : (makeMove b m).1 = true) :
    m ∈ generateLegalMoves b := by
  unfold generateLegalMoves
  exact List.mem_filter.mpr ⟨hp, isLegal_of_makeMove_fst hm⟩

/-- Successful applyLegalMoves preserves reachability. -/
theorem reachable_of_applyLegal (ms : List Move) : ∀ b b' : Board,
    ReachableByLegal b → applyLegalMoves b ms = some b' → ReachableByLegal b' := by
  induction ms with
  | nil =>
    intro b b' hr ha
    simp only [applyLegalMoves, Option.some.injEq] at ha
    exact ha ▸ hr
  | cons m rest ih =>
    intro b b' hr ha
    unfold applyLegalMoves at ha
    by_cases hp : m ∈ generatePseudoLegalMoves b
    · rw [if_pos hp] at ha
      by_cases hm : (makeMove b m).1 = true
      · rw [if_pos hm] at ha
        exact ih (makeMove b m).2 b'
          (ReachableByLegal.step b m hr (mem_legal_of_pseudo_make hp hm) hm) ha
      · rw [if_neg hm] at ha
        exact absurd ha (by simp)
    · rw [if_neg hp] at ha
      exact absurd ha (by simp)

set_option maxRecDepth 10000000

set_option maxHeartbeats 0

/-- Shorthand for a quiet move record. -/
def mvq (f t : Int) : Move := { from_square := f, to_square := t }

/-- The 31 engine-accepted moves of the C5 path from the standard starting
position, followed by the en-passant capture onto the occupied square h5;
every move is produced by generate_pseudo_legal_moves and accepted by
make_move, hence a member of generate_legal_moves at its position. -/
def c5path : List Move :=
  [mvq 14 30, mvq 48 40, mvq 5 21, mvq 55 47, mvq 20 47, mvq 12 28, mvq 57 48,
   mvq 20 38, mvq 8 24, mvq 52 44, mvq 0 16, mvq 39 31, mvq 61 54, mvq 20 41,
   mvq 6 14, mvq 43 35, mvq 58 57,
   { from_square := 3, to_square := 6, is_castling := true }, mvq 53 39,
   mvq 20 29, mvq 5 11, mvq 50 34, mvq 13 18, mvq 59 57, mvq 29 37, mvq 20 38,
   mvq 0 16, mvq 13 6, mvq 15 31, mvq 33 24, mvq 47 29,
   { from_square := 30, to_square := 39, is_en_passant := true }]

/-- The position at the end of the C5 path: two pawns share square h5. -/
def c5Final : Board := (applyLegalMoves initialBoard c5path).getD initialBoard

/-- Concrete boards used by the claim theorems below. -/
def c2Board : Board := fromFen ("7k/8/2pp4/3p4/2PP4/8/8/7K w - - 0 1".data)

def c6Board : Board := fromFen ("8/8/N7/5Kk1/6N1/8/8/6P1 b - - 0 1".data)

def c7Board : Board := fromFen ("6k1/8/6K1/8/8/8/8/1R6 w - - 0 1".data)

/-- Best move and score of the depth-1 search on the mate-in-one board,
projected in one pass. -/
def c7Out : Option Move × Int :=
  (fun r => (r.1, r.2.1)) (negaSearch matEval insuffNever neverExpired c7Board 1)

def c8QxP : Board := fromFen ("k7/8/3r4/3p4/8/3Q4/8/K7 w - - 0 1".data)

def c8PxP : Board := fromFen ("k7/8/8/3p4/4P3/8/8/K7 w - - 0 1".data)

def c9Board : Board := fromFen ("4r2k/8/8/8/8/8/8/4K2R w K - 0 1".data)

def c10Board : Board := fromFen ("4k3/8/8/4Pp2/8/8/8/4K3 w - f6 0 1".data)

def c10Move : Move := { from_square := 36, to_square := 45, is_en_passant := true }

def c4Move : Move := { from_square := 16, to_square := 24 }

/-- C1: the spec asserts perft 20 / 400 / 8902 / 197281 at depths 1-4 from
the standard starting position; the code yields 17 at depth 1 (pop_lsb
computes every square one too low, so the move generator emits moves from
and to shifted squares: the h2 pawn never moves, and rook and bishop
squares move as knights).  This theorem evaluates the code at the failing
input, depth 1. -/
theorem C1_perft_depth_one : perft 1 initialBoard = 17 := by decide

/-- C2: a QuiescenceSearch.search invocation on a reachable position (set
by from_fen) that makes and unmakes nested captures does not restore the
board: unmake_last_move reloads an intermediate FEN whose from_fen wipes
both histories, so outer frames find an empty move history and never
undo.  After the call returns, the piece bitboards differ from the
entry state (and both histories are corrupted). -/
theorem C2_quiescence_leaves_board_mutated :
    (qsearch pawnEval initOrderer 20 c2Board (-999999) 999999 0).2.pieces ≠
      c2Board.pieces := by decide

/-- C3: with a time budget that has already expired at the first
wall-clock poll, NegascoutSearch.search returns the None sentinel even
though the root position (the standard starting position) has nonempty
legal moves, contradicting the claim that None is returned only when no
legal move exists. -/
theorem C3_expired_budget_returns_none :
    (negaSearch pawnEval insuffNever alwaysExpired initialBoard 3).1 = none ∧
      generateLegalMoves initialBoard ≠ [] := by
  exact ⟨by decide, by decide⟩

/-- C4: the move a3-a4 from an empty square is not legal in the starting
position (it is not in generate_legal_moves), yet make_move returns True
and appends the move to move_history: is_legal_move makes a no-op trial
(no piece on the origin), forgets that the side to move never toggled,
and checks the wrong king. -/
theorem C4_make_move_accepts_illegal :
    (makeMove initialBoard c4Move).1 = true ∧
      (makeMove initialBoard c4Move).2.move_history = [c4Move] ∧
      c4Move ∉ generateLegalMoves initialBoard := by
  refine ⟨by decide, by decide, by decide⟩

/-- C5: a position reachable from the standard starting position by
engine-legal moves on which the FEN round trip loses a piece.  On the
path a pawn jump emitted by the shifted knight generator sets the
en-passant square onto an occupied square; the following en-passant
capture stacks a white pawn on the black pawn at h5, and to_fen prints
only one piece of that square, so from_fen(to_fen(p)) drops the black
pawn: the black pawn bitboard does not survive the round trip. -/
theorem C5_fen_roundtrip_fails_on_reachable :
    ReachableByLegal c5Final ∧
      piecesBB (fromFen (toFen c5Final)) BLACK PAWN ≠ piecesBB c5Final BLACK PAWN := by
  constructor
  · exact reachable_of_applyLegal c5path initialBoard c5Final ReachableByLegal.base
      (by decide)
  · decide

/-- C6 counterexample: on a concrete position at depth 1 with the full
window, negascout returns 83 while the plain full-window reference
negamax with the same legal move generation, terminal scoring and leaf
evaluation returns -83: the quiescence leaf value depends on the window,
so a null-window probe misjudges a subtree and no re-search repairs it. -/
theorem C6_negascout_differs_from_reference :
    (negascout hashEval insuffNever neverExpired 4 c6Board 1 (-999999) 999999 0 true
        initSState).1 = 83 ∧
      (refMinimax hashEval insuffNever 1 c6Board 0).1 = -83 ∧ (83 : Int) ≠ -83 := by
  refine ⟨by decide, by decide, by decide⟩

/-- C6 amended: at depth 0 the equality does hold for every position and
every evaluator, because negascout defers to the identical quiescence
call with the identical full window. -/
theorem C6_depth_zero_agreement (ev : Board → Int) (insuff : Board → Bool) (b : Board) :
    (negascout ev insuff neverExpired 1 b 0 (-999999) 999999 0 true initSState).1 =
      (refMinimax ev insuff 0 b 0).1 := rfl

/-- C7: on a genuine mate-in-one position (white Kg6, Rb1 versus black
Kg8; Rb1-b8 is checkmate), NegascoutSearch.search at max depth 1 with an
ample time budget returns the move (0, 8) - a shifted no-piece move from
a1 - with score -500, not a mating move (1 to 57) and not the extreme
mate score 19999: at depth 1 every child is evaluated by quiescence,
which never tests for checkmate, and the shifted generator does not even
emit the mating rook move. -/
theorem C7_mate_in_one_not_found_at_depth_one :
    c7Out = (some ({ from_square := 0, to_square := 8 } : Move), -500) := by decide

/-- C8: static exchange evaluation on the concrete positions of the
claim.  Queen takes the pawn on d5 defended by exactly the rook on d6:
the code returns +100 instead of -800, because get_attackers pops every
attacker square one too low and the defending rook is tested at a
diagonal offset, hence never found; the sign is positive although the
exchange loses the queen.  Pawn takes the undefended pawn returns +100
as claimed. -/
theorem C8_see_values :
    seeEvaluate c8QxP { from_square := 19, to_square := 35 } = 100 ∧
      seeEvaluate c8PxP { from_square := 28, to_square := 35 } = 100 ∧
      getPieceAt c8QxP 35 = some (PAWN, BLACK) ∧
      getPieceAt c8QxP 19 = some (QUEEN, WHITE) ∧
      getPieceAt c8QxP 43 = some (ROOK, BLACK) := by
  refine ⟨by decide, by decide, by decide, by decide, by decide⟩

/-- C9: the pseudo-legal generator emits the white kingside castling move
on a board where the white king on e1 (square 4, the only white king
bit) is attacked by the black rook on e8 - the side to move is in check,
so the claimed iff fails: is_in_check tests the square one below the
king, d1, which is not attacked. -/
theorem C9_castle_emitted_while_in_check :
    ((generatePseudoLegalMoves c9Board).any (·.is_castling)) = true ∧
      piecesBB c9Board WHITE KING = 2 ^ 4 ∧
      isSquareAttacked c9Board 4 BLACK = true := by
  refine ⟨by decide, by decide, by decide⟩

/-- C10: for every board and every move whose destination square (a
square index, 0 to 63) holds no piece, StaticExchangeEvaluator.evaluate
returns 0 on its first branch; in particular an en-passant capture, whose
destination square is empty, scores 0. -/
theorem C10_see_empty_destination (b : Board) (m : Move)
    (_h0 : 0 ≤ m.to_square) (_h64 : m.to_square < 64)
    (h : getPieceAt b m.to_square = none) : seeEvaluate b m = 0 := by
  unfold seeEvaluate
  rw [h]

/-- C10 witness: the en-passant capture e5xf6 on a board whose en-passant
square f6 (square 45) is empty scores 0. -/
theorem C10_see_empty_destination_witness :
    getPieceAt c10Board (45 : Int) = none ∧ seeEvaluate c10Board c10Move = 0 :=
  ⟨by decide, C10_see_empty_destination c10Board c10Move (by decide) (by decide) (by decide)⟩

end Cece
